import Mathlib

/-!
Shallow embedding of the sqlstore persistence layer (team store, job store,
system store, status store) of the mattermost-server fork, together with
theorems settling the specification claims about it.

Conventions of the embedding:
* SQL tables are modelled as Lean lists of row structures; `sql.NullBool`
  and `sql.NullString` become `Option Bool` / `Option String`.
* Functions that talk to the database become pure functions taking the
  table contents (and, where a claim is about a driver-reported outcome
  such as an affected-row count or an insert error, that outcome as an
  explicit argument) and returning the new table contents plus the Go
  function's return values.  A Go `error` result becomes `Option DbErr`
  (`none` = nil error).
* `strings.Fields` / `strings.Join(…, " ")` / `strings.Contains` are
  re-implemented on `List Char` so that everything evaluates by `decide`.
-/

/-- Lexicographic strict comparison of character lists, mirroring how the
database compares string keys in `(TeamId, UserId) > (:TeamId, :UserId)`. -/
def charListLt : List Char → List Char → Bool
  | [], [] => false
  | [], _ :: _ => true
  | _ :: _, [] => false
  | a :: as, b :: bs => if a < b then true else if b < a then false else charListLt as bs

/-- Strict lexicographic order on strings via their character data. -/
def strLt (a b : String) : Bool := charListLt a.data b.data

/-- Splits a character list at every whitespace character; the groups between
(possibly consecutive) whitespace characters are returned in order, empty
groups included.  Always returns a non-empty list of groups. -/
def wsSplit : List Char → List (List Char)
  | [] => [[]]
  | c :: cs =>
    match wsSplit cs with
    | [] => [[]]
    | g :: gs => if c.isWhitespace then [] :: g :: gs else (c :: g) :: gs

/-- Embedding of Go `strings.Fields`: the whitespace-separated fields of a
string, in order, with empty fields dropped. -/
def strFields (s : String) : List String :=
  ((wsSplit s.data).filter (fun g => !g.isEmpty)).map String.mk

/-- Embedding of Go `strings.Join(l, " ")`. -/
def joinSpace : List String → String
  | [] => ""
  | [s] => s
  | s :: rest => s ++ " " ++ joinSpace rest

/-- Does `sub` occur as a contiguous run at the beginning of `s`? -/
def charsStartsWith : List Char → List Char → Bool
  | _, [] => true
  | [], _ :: _ => false
  | c :: cs, d :: ds => c == d && charsStartsWith cs ds

/-- Does `sub` occur as a contiguous run anywhere in `s`? -/
def charsContains : List Char → List Char → Bool
  | [], sub => sub.isEmpty
  | c :: cs, sub => charsStartsWith (c :: cs) sub || charsContains cs sub

/-- Embedding of Go `strings.Contains(s, sub)`. -/
def goContains (s sub : String) : Bool := charsContains s.data sub.data

/-- model.TEAM_GUEST_ROLE_ID -/
def TEAM_GUEST_ROLE_ID : String := "team_guest"

/-- model.TEAM_USER_ROLE_ID -/
def TEAM_USER_ROLE_ID : String := "team_user"

/-- model.TEAM_ADMIN_ROLE_ID -/
def TEAM_ADMIN_ROLE_ID : String := "team_admin"

/-- Go errors relevant to the embedded store functions.  `none : Option DbErr`
stands for a nil Go error. -/
inductive DbErr where
  | sqlErrNoRows
  | uniqueConstraint
  | other (msg : String)
deriving DecidableEq, Repr

/-- team_store.go: `rolesInfo` (result of the Role Resolver). -/
structure rolesInfo where
  roles : List String
  explicitRoles : List String
  schemeGuest : Bool
  schemeUser : Bool
  schemeAdmin : Bool
deriving DecidableEq, Repr

/-- The first loop of `getTeamRoles`: partitions the incoming role tokens,
absorbing the three well-known scheme role IDs into the boolean flags and
keeping every other token in both `roles` and `explicitRoles`. -/
def getTeamRolesLoop : rolesInfo → List String → rolesInfo
  | result, [] => result
  | result, role :: rest =>
    if role = TEAM_GUEST_ROLE_ID then
      getTeamRolesLoop { result with schemeGuest := true } rest
    else if role = TEAM_USER_ROLE_ID then
      getTeamRolesLoop { result with schemeUser := true } rest
    else if role = TEAM_ADMIN_ROLE_ID then
      getTeamRolesLoop { result with schemeAdmin := true } rest
    else
      getTeamRolesLoop
        { result with
          explicitRoles := result.explicitRoles ++ [role]
          roles := result.roles ++ [role] } rest

/-- The `schemeImpliedRoles` slice built by `getTeamRoles` from the resolved
boolean flags: scheme default name when non-empty, well-known fallback ID
otherwise. -/
def schemeImpliedRolesFor (result : rolesInfo)
    (defaultTeamGuestRole defaultTeamUserRole defaultTeamAdminRole : String) : List String :=
  (if result.schemeGuest then
    [if defaultTeamGuestRole ≠ "" then defaultTeamGuestRole else TEAM_GUEST_ROLE_ID]
   else [])
  ++ (if result.schemeUser then
    [if defaultTeamUserRole ≠ "" then defaultTeamUserRole else TEAM_USER_ROLE_ID]
   else [])
  ++ (if result.schemeAdmin then
    [if defaultTeamAdminRole ≠ "" then defaultTeamAdminRole else TEAM_ADMIN_ROLE_ID]
   else [])

/-- The final loop of `getTeamRoles`: appends each implied role to `roles`
unless it is already there. -/
def appendImpliedRoles (roles : List String) (implied : List String) : List String :=
  implied.foldl
    (fun acc impliedRole => if acc.contains impliedRole then acc else acc ++ [impliedRole]) roles

/-- team_store.go: `getTeamRoles` (the Role Resolver). -/
def getTeamRoles (schemeGuest schemeUser schemeAdmin : Bool)
    (defaultTeamGuestRole defaultTeamUserRole defaultTeamAdminRole : String)
    (roles : List String) : rolesInfo :=
  let result := getTeamRolesLoop
    { roles := [], explicitRoles := []
      schemeGuest := schemeGuest, schemeUser := schemeUser, schemeAdmin := schemeAdmin } roles
  { result with
    roles := appendImpliedRoles result.roles
      (schemeImpliedRolesFor result defaultTeamGuestRole defaultTeamUserRole defaultTeamAdminRole) }

/-- model.TeamMember (the domain object). -/
structure TeamMember where
  teamId : String
  userId : String
  roles : String
  deleteAt : Int
  schemeGuest : Bool
  schemeUser : Bool
  schemeAdmin : Bool
  explicitRoles : String
deriving DecidableEq, Repr

/-- team_store.go: `teamMember` (the TeamMembers table row). -/
structure teamMember where
  teamId : String
  userId : String
  roles : String
  deleteAt : Int
  schemeUser : Option Bool
  schemeAdmin : Option Bool
  schemeGuest : Option Bool
deriving DecidableEq, Repr

/-- team_store.go: `NewTeamMemberFromModel` (also the column list used by
`teamMemberToSlice` for the bulk insert: ExplicitRoles is what is stored in
the Roles column). -/
def NewTeamMemberFromModel (tm : TeamMember) : teamMember :=
  { teamId := tm.teamId
    userId := tm.userId
    roles := tm.explicitRoles
    deleteAt := tm.deleteAt
    schemeGuest := some tm.schemeGuest
    schemeUser := some tm.schemeUser
    schemeAdmin := some tm.schemeAdmin }

/-- team_store.go: `teamMemberWithSchemeRoles` (joined row shape). -/
structure teamMemberWithSchemeRoles where
  teamId : String
  userId : String
  roles : String
  deleteAt : Int
  schemeGuest : Option Bool
  schemeUser : Option Bool
  schemeAdmin : Option Bool
  teamSchemeDefaultGuestRole : Option String
  teamSchemeDefaultUserRole : Option String
  teamSchemeDefaultAdminRole : Option String
deriving DecidableEq, Repr

/-- team_store.go: `teamMemberWithSchemeRoles.ToModel`. -/
def teamMemberWithSchemeRoles.ToModel (db : teamMemberWithSchemeRoles) : TeamMember :=
  let schemeGuest := db.schemeGuest.getD false
  let schemeUser := db.schemeUser.getD false
  let schemeAdmin := db.schemeAdmin.getD false
  let defaultTeamGuestRole := db.teamSchemeDefaultGuestRole.getD ""
  let defaultTeamUserRole := db.teamSchemeDefaultUserRole.getD ""
  let defaultTeamAdminRole := db.teamSchemeDefaultAdminRole.getD ""
  let rolesResult := getTeamRoles schemeGuest schemeUser schemeAdmin
    defaultTeamGuestRole defaultTeamUserRole defaultTeamAdminRole (strFields db.roles)
  { teamId := db.teamId
    userId := db.userId
    roles := joinSpace rolesResult.roles
    deleteAt := db.deleteAt
    schemeGuest := rolesResult.schemeGuest
    schemeUser := rolesResult.schemeUser
    schemeAdmin := rolesResult.schemeAdmin
    explicitRoles := joinSpace rolesResult.explicitRoles }

/-- Row of the per-team scheme-default-roles query issued by
`SaveMultipleMembers` / `UpdateMultipleMembers` (Teams LEFT JOIN Schemes). -/
structure defaultTeamRolesRow where
  id : String
  guest : Option String
  userRole : Option String
  admin : Option String
deriving DecidableEq, Repr

/-- Users table row (only the columns the team store reads). -/
structure userRow where
  id : String
  deleteAt : Int
deriving DecidableEq, Repr

/-- The database state the team-membership operations read and write. -/
structure TeamsDB where
  teams : List defaultTeamRolesRow
  users : List userRow
  members : List teamMember
deriving DecidableEq, Repr

/-- The active-member count per team computed by the capacity query of
`SaveMultipleMembers`: TeamMembers joined with Users, both not soft-deleted. -/
def activeMemberCount (db : TeamsDB) (teamId : String) : Nat :=
  (db.members.filter (fun m =>
    m.teamId == teamId && m.deleteAt == 0
      && db.users.any (fun u => u.id == m.userId && u.deleteAt == 0))).length

/-- Lookup in `defaultTeamRolesByTeam`; a missing key yields the zero-valued
struct, whose NullString fields read as "" (as in Go). -/
def defaultRolesForTeam (db : TeamsDB) (teamId : String) : String × String × String :=
  match db.teams.find? (fun t => t.id == teamId) with
  | none => ("", "", "")
  | some t => (t.guest.getD "", t.userRole.getD "", t.admin.getD "")

/-- The member-resolution loop shared verbatim by `SaveMultipleMembers`
(lines 777-790) and `UpdateMultipleMembers` (lines 855-868): apply the Role
Resolver with the team's scheme defaults to each returned member. -/
def resolveMember (db : TeamsDB) (member : TeamMember) : TeamMember :=
  let (defaultTeamGuestRole, defaultTeamUserRole, defaultTeamAdminRole) :=
    defaultRolesForTeam db member.teamId
  let rolesResult := getTeamRoles member.schemeGuest member.schemeUser member.schemeAdmin
    defaultTeamGuestRole defaultTeamUserRole defaultTeamAdminRole (strFields member.explicitRoles)
  { member with
    schemeGuest := rolesResult.schemeGuest
    schemeUser := rolesResult.schemeUser
    schemeAdmin := rolesResult.schemeAdmin
    roles := joinSpace rolesResult.roles
    explicitRoles := joinSpace rolesResult.explicitRoles }

/-- team_store.go: `SaveMultipleMembers`.  Result: (database afterwards,
returned member list, returned error).  `member.IsValid()` lives in the
`model` package (not part of this repository slice); members are taken as
valid.  The capacity guard at line 753 returns the `err` variable, which is
provably nil on that path (it was error-checked just above), so the embedding
returns `none` for the error there; likewise no partial insert is modelled
because the guard returns before the INSERT is issued.  A primary-key
collision of the batch INSERT (against existing rows or within the batch)
surfaces as a unique-constraint error and inserts nothing (a single
multi-row INSERT statement is atomic). -/
def SaveMultipleMembers (db : TeamsDB) (membersArg : List TeamMember)
    (maxUsersPerTeam : Int) : TeamsDB × Option (List TeamMember) × Option DbErr :=
  if maxUsersPerTeam ≥ 0
      ∧ membersArg.any (fun m =>
          (activeMemberCount db m.teamId : Int)
            + ((membersArg.filter (fun x => x.teamId == m.teamId)).length : Int)
            > maxUsersPerTeam) then
    (db, none, none)
  else if membersArg.any (fun m =>
        db.members.any (fun r => r.teamId == m.teamId && r.userId == m.userId))
      ∨ ¬ (membersArg.map (fun m => (m.teamId, m.userId))).Nodup then
    (db, none, some DbErr.uniqueConstraint)
  else
    ({ db with members := db.members ++ membersArg.map NewTeamMemberFromModel },
      some (membersArg.map (resolveMember db)), none)

/-- team_store.go: `UpdateMultipleMembers`.  Each member is written with an
individual UPDATE keyed on (TeamId, UserId) (a row that does not exist is
silently unaffected: gorp reports a zero row count, which the code ignores);
afterwards the batched scheme-defaults lookup feeds the Role Resolver.
`PreUpdate`/`IsValid` live in the `model` package and are not modelled. -/
def UpdateMultipleMembers (db : TeamsDB) (membersArg : List TeamMember) :
    TeamsDB × Option (List TeamMember) × Option DbErr :=
  let db' := { db with
    members := db.members.map (fun r =>
      match membersArg.reverse.find? (fun m => m.teamId == r.teamId && m.userId == r.userId) with
      | some m => NewTeamMemberFromModel m
      | none => r) }
  (db', some (membersArg.map (resolveMember db)), none)

/-- model.Team (the columns the team store's Update/Get paths touch). -/
structure Team where
  id : String
  name : String
  createAt : Int
  updateAt : Int
deriving DecidableEq, Repr

/-- team_store.go: `Update` (lines 266-297).  The two database interactions
are passed in as the driver would report them: `oldResult` is what
`GetMaster().Get` found (gorp returns a nil object and a nil error when the
row is absent), `updateCount` is the row count of the subsequent write, and
`now` is `model.GetMillis()`.  On the `oldResult == nil` path and on the
`count != 1` path the code returns the `err` variable, which is nil at both
points. -/
def teamUpdate (team : Team) (oldResult : Option Team) (updateCount : Int)
    (now : Int) : Option Team × Option DbErr :=
  match oldResult with
  | none => (none, none)
  | some oldTeam =>
    let team' := { team with createAt := oldTeam.createAt, updateAt := now }
    if updateCount ≠ 1 then (none, none) else (some team', none)

/-- team_store.go: `Get` (lines 302-312).  `obj`/`getErr` are what
`GetReplica().Get` reports; a missing row is (nil, nil) in gorp.  When
`obj == nil` the code returns the `err` variable, which is nil there. -/
def teamGet (obj : Option Team) (getErr : Option DbErr) : Option Team × Option DbErr :=
  match getErr with
  | some e => (none, some e)
  | none =>
    match obj with
    | none => (none, none)
    | some t => (some t, none)

/-- team_store.go: `GetByName` (lines 334-346).  `res` is what
`GetReplica().SelectOne` reports (`sql.ErrNoRows` when no row matches).
Both arms of the error branch return the raw driver error unchanged. -/
def teamGetByName (res : Except DbErr Team) : Option Team × Option DbErr :=
  match res with
  | Except.error e =>
    if e = DbErr.sqlErrNoRows then (none, some e) else (none, some e)
  | Except.ok team => (some team, none)

/-- The (TeamId, UserId) primary key of a TeamMembers row. -/
def rowKey (m : teamMember) : String × String := (m.teamId, m.userId)

/-- The SQL row-tuple comparison `(TeamId, UserId) > (:FromTeamId, :FromUserId)`
as a strict lexicographic order on key pairs (here: `k1 < k2`). -/
def keyLtB (k1 k2 : String × String) : Bool :=
  strLt k1.1 k2.1 || (k1.1 == k2.1 && strLt k1.2 k2.2)

/-- Propositional form of `keyLtB`. -/
def KeyLt (k1 k2 : String × String) : Prop := keyLtB k1 k2 = true

instance (k1 k2 : String × String) : Decidable (KeyLt k1 k2) := by
  unfold KeyLt; infer_instance

/-- The per-row migration body of `MigrateTeamMembers` (lines 1186-1196):
fold over the role tokens, absorbing the three well-known scheme role IDs
into the booleans and keeping the rest. -/
def migrateRoles : List String → Bool → Bool → Bool → List String →
    Bool × Bool × Bool × List String
  | [], schemeAdmin, schemeUser, schemeGuest, newRoles =>
    (schemeAdmin, schemeUser, schemeGuest, newRoles)
  | role :: rest, schemeAdmin, schemeUser, schemeGuest, newRoles =>
    if role = TEAM_ADMIN_ROLE_ID then
      migrateRoles rest true schemeUser schemeGuest newRoles
    else if role = TEAM_USER_ROLE_ID then
      migrateRoles rest schemeAdmin true schemeGuest newRoles
    else if role = TEAM_GUEST_ROLE_ID then
      migrateRoles rest schemeAdmin schemeUser true newRoles
    else
      migrateRoles rest schemeAdmin schemeUser schemeGuest (newRoles ++ [role])

/-- The full per-row transformation of `MigrateTeamMembers` (lines
1173-1197): invalid NullBools become valid-false first, then the role tokens
are folded into the booleans and the residue is re-joined. -/
def migrateRow (m : teamMember) : teamMember :=
  let (schemeAdmin, schemeUser, schemeGuest, newRoles) :=
    migrateRoles (strFields m.roles)
      (m.schemeAdmin.getD false) (m.schemeUser.getD false) (m.schemeGuest.getD false) []
  { m with
    schemeAdmin := some schemeAdmin
    schemeUser := some schemeUser
    schemeGuest := some schemeGuest
    roles := joinSpace newRoles }

/-- The SELECT of `MigrateTeamMembers`: rows strictly after the cursor in
(TeamId, UserId) order, at most 100 of them.  The table is modelled as a
list already sorted by primary key, so ORDER BY is the identity. -/
def selectBatch (dbMembers : List teamMember) (fromTeamId fromUserId : String) :
    List teamMember :=
  (dbMembers.filter (fun m => keyLtB (fromTeamId, fromUserId) (rowKey m))).take 100

/-- team_store.go: `MigrateTeamMembers` (lines 1154-1214).  Returns the new
cursor (`none` once the result set is empty, the terminal state) and the
table contents after the batch's transaction committed. -/
def MigrateTeamMembers (dbMembers : List teamMember) (fromTeamId fromUserId : String) :
    Option (String × String) × List teamMember :=
  let batch := selectBatch dbMembers fromTeamId fromUserId
  match batch.getLast? with
  | none => (none, dbMembers)
  | some lastRow =>
    let newMembers := dbMembers.map (fun m =>
      if batch.any (fun b => b.teamId == m.teamId && b.userId == m.userId) then
        migrateRow m
      else m)
    (some (lastRow.teamId, lastRow.userId), newMembers)

/-- The caller-side driver loop for `MigrateTeamMembers` (the spec's
migration state machine): keep feeding the returned (TeamId, UserId) cursor
into the next call.  Returns the keys of the rows visited by each call, in
order, and whether the terminal empty result was reached within `fuel`
calls. -/
def migrateRun : Nat → List teamMember → String × String →
    List (String × String) × Bool
  | 0, _, _ => ([], false)
  | Nat.succ fuel, dbMembers, cursor =>
    let batch := selectBatch dbMembers cursor.1 cursor.2
    match MigrateTeamMembers dbMembers cursor.1 cursor.2 with
    | (none, _) => ([], true)
    | (some cursor', dbMembers') =>
      let rest := migrateRun fuel dbMembers' cursor'
      (batch.map rowKey ++ rest.1, rest.2)

/-- model.Job (the columns the job store's optimistic updates touch). -/
structure Job where
  id : String
  status : String
  data : String
  progress : Int
  lastActivityAt : Int
  startAt : Int
deriving DecidableEq, Repr

/-- model.JOB_STATUS_IN_PROGRESS -/
def JOB_STATUS_IN_PROGRESS : String := "in_progress"

/-- team_store.go (job store section): `UpdateOptimistically` (lines
1524-1551).  The UPDATE touches the rows WHERE Id = job.Id AND
Status = currentStatus; the affected-row count decides the boolean.
SQL transport errors are outside the model, so the Go error result is
always nil here and is omitted. -/
def UpdateOptimistically (dbJobs : List Job) (job : Job) (currentStatus : String)
    (now : Int) : List Job × Bool :=
  let hit := fun r => r.id == job.id && r.status == currentStatus
  let newJobs := dbJobs.map (fun r =>
    if hit r then
      { r with lastActivityAt := now, status := job.status, data := job.data,
               progress := job.progress }
    else r)
  (newJobs, (dbJobs.filter hit).length == 1)

/-- team_store.go (job store section): `UpdateStatusOptimistically` (lines
1569-1597).  Same compare-and-swap shape; additionally sets StartAt when the
new status is in_progress. -/
def UpdateStatusOptimistically (dbJobs : List Job) (id currentStatus newStatus : String)
    (now : Int) : List Job × Bool :=
  let hit := fun r => r.id == id && r.status == currentStatus
  let newJobs := dbJobs.map (fun r =>
    if hit r then
      let r' := { r with lastActivityAt := now, status := newStatus }
      if newStatus = JOB_STATUS_IN_PROGRESS then { r' with startAt := now } else r'
    else r)
  (newJobs, (dbJobs.filter hit).length == 1)

/-- model.System (Systems table row). -/
structure SystemRow where
  name : String
  value : String
deriving DecidableEq, Repr

/-- system_store.go: `InsertIfExists` (lines 93-123).  The SelectOne
tolerates `sql.ErrNoRows`, leaving `origSystem` at its zero value; the
existing-value test is `origSystem.Value != ""`.  An insert that collides on
the primary key (Name) fails and the deferred finalize rolls the transaction
back, leaving the table unchanged. -/
def InsertIfExists (dbSystems : List SystemRow) (system : SystemRow) :
    List SystemRow × Except DbErr SystemRow :=
  let origSystem := (dbSystems.find? (fun r => r.name == system.name)).getD ⟨"", ""⟩
  if origSystem.value ≠ "" then
    (dbSystems, Except.ok origSystem)
  else if dbSystems.any (fun r => r.name == system.name) then
    (dbSystems, Except.error DbErr.uniqueConstraint)
  else
    (dbSystems ++ [system], Except.ok system)

/-- model.Status (Status table row). -/
structure StatusRow where
  userId : String
  status : String
  manual : Bool
  lastActivityAt : Int
deriving DecidableEq, Repr

/-- The duplicate-key fragments status SaveOrUpdate pattern-matches on
(apostrophes written as \x27): "for key 'PRIMARY'". -/
def PRIMARY_KEY_ERROR_FRAGMENT : String := "for key \x27PRIMARY\x27"

/-- The other matched fragment: "Duplicate entry". -/
def DUPLICATE_ENTRY_FRAGMENT : String := "Duplicate entry"

/-- status_store.go: `SqlStatusStore.SaveOrUpdate` (lines 43-56).  The
initial replica SelectOne decides the branch; on the insert branch the
driver-reported insert error is passed in as `insertErr` (it can be a
duplicate-key error only under a concurrent insert, which the sequential
table model cannot produce by itself).  An insert error whose text contains
both "for key 'PRIMARY'" and "Duplicate entry" is swallowed: the function
returns a nil error having written nothing. -/
def StatusSaveOrUpdate (dbStatus : List StatusRow) (status : StatusRow)
    (insertErr : Option String) : List StatusRow × Option String :=
  if dbStatus.any (fun r => r.userId == status.userId) then
    (dbStatus.map (fun r => if r.userId == status.userId then status else r), none)
  else
    match insertErr with
    | none => (dbStatus ++ [status], none)
    | some e =>
      if goContains e PRIMARY_KEY_ERROR_FRAGMENT && goContains e DUPLICATE_ENTRY_FRAGMENT then
        (dbStatus, none)
      else
        (dbStatus, some e)

/-- A token that is none of the three well-known scheme role IDs (the
tokens `getTeamRoles` keeps in the explicit list). -/
def nonSchemeTokenB (role : String) : Bool :=
  !(role == TEAM_GUEST_ROLE_ID || role == TEAM_USER_ROLE_ID || role == TEAM_ADMIN_ROLE_ID)

theorem getTeamRolesLoop_eq (roles : List String) :
    ∀ result : rolesInfo,
    getTeamRolesLoop result roles =
      { roles := result.roles ++ roles.filter nonSchemeTokenB
        explicitRoles := result.explicitRoles ++ roles.filter nonSchemeTokenB
        schemeGuest := result.schemeGuest || roles.contains TEAM_GUEST_ROLE_ID
        schemeUser := result.schemeUser || roles.contains TEAM_USER_ROLE_ID
        schemeAdmin := result.schemeAdmin || roles.contains TEAM_ADMIN_ROLE_ID } := by
  induction roles with
  | nil => intro result; simp [getTeamRolesLoop]
  | cons role rest ih =>
    intro result
    by_cases hg : role = TEAM_GUEST_ROLE_ID
    · subst hg
      simp [getTeamRolesLoop, ih, nonSchemeTokenB, List.filter_cons, List.contains_cons,
        TEAM_GUEST_ROLE_ID, TEAM_USER_ROLE_ID, TEAM_ADMIN_ROLE_ID]
    · by_cases hu : role = TEAM_USER_ROLE_ID
      · subst hu
        simp [getTeamRolesLoop, ih, nonSchemeTokenB, List.filter_cons, List.contains_cons,
          TEAM_GUEST_ROLE_ID, TEAM_USER_ROLE_ID, TEAM_ADMIN_ROLE_ID]
      · by_cases ha : role = TEAM_ADMIN_ROLE_ID
        · subst ha
          simp [getTeamRolesLoop, ih, nonSchemeTokenB, List.filter_cons, List.contains_cons,
            TEAM_GUEST_ROLE_ID, TEAM_USER_ROLE_ID, TEAM_ADMIN_ROLE_ID]
        · simp [getTeamRolesLoop, hg, hu, ha, ih, nonSchemeTokenB, List.filter_cons,
            List.contains_cons, bne_iff_ne, Ne.symm]

theorem migrateRoles_eq (roles : List String) :
    ∀ (schemeAdmin schemeUser schemeGuest : Bool) (newRoles : List String),
    migrateRoles roles schemeAdmin schemeUser schemeGuest newRoles =
      (schemeAdmin || roles.contains TEAM_ADMIN_ROLE_ID,
       schemeUser || roles.contains TEAM_USER_ROLE_ID,
       schemeGuest || roles.contains TEAM_GUEST_ROLE_ID,
       newRoles ++ roles.filter nonSchemeTokenB) := by
  induction roles with
  | nil => intro a u g newRoles; simp [migrateRoles]
  | cons role rest ih =>
    intro a u g newRoles
    by_cases ha : role = TEAM_ADMIN_ROLE_ID
    · subst ha
      simp [migrateRoles, ih, nonSchemeTokenB, List.filter_cons, List.contains_cons,
        TEAM_GUEST_ROLE_ID, TEAM_USER_ROLE_ID, TEAM_ADMIN_ROLE_ID]
    · by_cases hu : role = TEAM_USER_ROLE_ID
      · subst hu
        simp [migrateRoles, ih, nonSchemeTokenB, List.filter_cons, List.contains_cons,
          TEAM_GUEST_ROLE_ID, TEAM_USER_ROLE_ID, TEAM_ADMIN_ROLE_ID]
      · by_cases hg : role = TEAM_GUEST_ROLE_ID
        · subst hg
          simp [migrateRoles, ih, nonSchemeTokenB, List.filter_cons, List.contains_cons,
            TEAM_GUEST_ROLE_ID, TEAM_USER_ROLE_ID, TEAM_ADMIN_ROLE_ID]
        · simp [migrateRoles, ha, hu, hg, ih, nonSchemeTokenB, List.filter_cons,
            List.contains_cons, bne_iff_ne, Ne.symm]

/-- C2: for every input token list of the Role Resolver, the explicit-role
output is exactly the sublist of non-scheme tokens (original order, one
occurrence per input occurrence, hence each token once when the input has no
duplicates), and each well-known scheme role ID among the tokens is OR-ed
into the corresponding boolean flag and dropped from the explicit list. -/
theorem getTeamRoles_explicit_partition (schemeGuest schemeUser schemeAdmin : Bool)
    (defaultTeamGuestRole defaultTeamUserRole defaultTeamAdminRole : String)
    (roles : List String) :
    (getTeamRoles schemeGuest schemeUser schemeAdmin
        defaultTeamGuestRole defaultTeamUserRole defaultTeamAdminRole roles).explicitRoles
      = roles.filter nonSchemeTokenB
    ∧ (getTeamRoles schemeGuest schemeUser schemeAdmin
        defaultTeamGuestRole defaultTeamUserRole defaultTeamAdminRole roles).schemeGuest
      = (schemeGuest || roles.contains TEAM_GUEST_ROLE_ID)
    ∧ (getTeamRoles schemeGuest schemeUser schemeAdmin
        defaultTeamGuestRole defaultTeamUserRole defaultTeamAdminRole roles).schemeUser
      = (schemeUser || roles.contains TEAM_USER_ROLE_ID)
    ∧ (getTeamRoles schemeGuest schemeUser schemeAdmin
        defaultTeamGuestRole defaultTeamUserRole defaultTeamAdminRole roles).schemeAdmin
      = (schemeAdmin || roles.contains TEAM_ADMIN_ROLE_ID)
    ∧ (∀ tok : String, nonSchemeTokenB tok = true →
        ((getTeamRoles schemeGuest schemeUser schemeAdmin
          defaultTeamGuestRole defaultTeamUserRole defaultTeamAdminRole roles).explicitRoles).count tok
        = roles.count tok)
    ∧ (roles.Nodup →
        ((getTeamRoles schemeGuest schemeUser schemeAdmin
          defaultTeamGuestRole defaultTeamUserRole defaultTeamAdminRole roles).explicitRoles).Nodup) := by
  have hloop := getTeamRolesLoop_eq roles
    { roles := [], explicitRoles := []
      schemeGuest := schemeGuest, schemeUser := schemeUser, schemeAdmin := schemeAdmin }
  refine ⟨?_, ?_, ?_, ?_, ?_, ?_⟩
  · simp [getTeamRoles, hloop]
  · simp [getTeamRoles, hloop]
  · simp [getTeamRoles, hloop]
  · simp [getTeamRoles, hloop]
  · intro tok htok
    simp [getTeamRoles, hloop, List.count_filter htok]
  · intro hnd
    simp only [getTeamRoles, hloop]
    exact hnd.filter nonSchemeTokenB

theorem getTeamRoles_explicit_partition_witness :
    (getTeamRoles false false true "" "" "custom_admin"
      ["ctoken", "team_user", "dtoken"]).explicitRoles.Nodup :=
  (getTeamRoles_explicit_partition false false true "" "" "custom_admin"
    ["ctoken", "team_user", "dtoken"]).2.2.2.2.2 (by decide)

/-- C5: the per-row migration of `MigrateTeamMembers` computes the same
token partition as the Role Resolver: the migrated scheme booleans are the
stored booleans OR-ed with the presence of the corresponding well-known role
ID among the tokens (exactly the resolver's flags), and the residual role
string is the join of the resolver's explicit (non-scheme) token list in the
original order. -/
theorem migrateRow_matches_resolver (m : teamMember)
    (defaultTeamGuestRole defaultTeamUserRole defaultTeamAdminRole : String) :
    (migrateRow m).roles
      = joinSpace ((getTeamRoles (m.schemeGuest.getD false) (m.schemeUser.getD false)
          (m.schemeAdmin.getD false) defaultTeamGuestRole defaultTeamUserRole
          defaultTeamAdminRole (strFields m.roles)).explicitRoles)
    ∧ (migrateRow m).schemeGuest
      = some ((getTeamRoles (m.schemeGuest.getD false) (m.schemeUser.getD false)
          (m.schemeAdmin.getD false) defaultTeamGuestRole defaultTeamUserRole
          defaultTeamAdminRole (strFields m.roles)).schemeGuest)
    ∧ (migrateRow m).schemeUser
      = some ((getTeamRoles (m.schemeGuest.getD false) (m.schemeUser.getD false)
          (m.schemeAdmin.getD false) defaultTeamGuestRole defaultTeamUserRole
          defaultTeamAdminRole (strFields m.roles)).schemeUser)
    ∧ (migrateRow m).schemeAdmin
      = some ((getTeamRoles (m.schemeGuest.getD false) (m.schemeUser.getD false)
          (m.schemeAdmin.getD false) defaultTeamGuestRole defaultTeamUserRole
          defaultTeamAdminRole (strFields m.roles)).schemeAdmin)
    ∧ (getTeamRoles (m.schemeGuest.getD false) (m.schemeUser.getD false)
          (m.schemeAdmin.getD false) defaultTeamGuestRole defaultTeamUserRole
          defaultTeamAdminRole (strFields m.roles)).explicitRoles
      = (strFields m.roles).filter nonSchemeTokenB := by
  have hloop := getTeamRolesLoop_eq (strFields m.roles)
    { roles := [], explicitRoles := []
      schemeGuest := m.schemeGuest.getD false, schemeUser := m.schemeUser.getD false
      schemeAdmin := m.schemeAdmin.getD false }
  have hmr := migrateRoles_eq (strFields m.roles)
    (m.schemeAdmin.getD false) (m.schemeUser.getD false) (m.schemeGuest.getD false) []
  refine ⟨?_, ?_, ?_, ?_, ?_⟩ <;>
    simp [migrateRow, hmr, getTeamRoles, hloop]

/-- C1: evaluation of `SaveMultipleMembers` at a batch that exceeds the
team's capacity.  With `maxUsersPerTeam = 0` and one new member for a team
with 0 existing active members the capacity guard fires: no row is inserted
for any team (the table is unchanged), but the call does NOT fail — the
guard at line 753 returns the `err` variable, which is provably nil there,
so the caller receives (nil, nil).  With `maxUsersPerTeam = -1` the check is
disabled and the same batch is inserted. -/
theorem saveMultipleMembers_capacity_nil_error :
    SaveMultipleMembers
        { teams := [{ id := "t1", guest := none, userRole := none, admin := none }],
          users := [], members := [] }
        [{ teamId := "t1", userId := "u1", roles := "", deleteAt := 0,
           schemeGuest := false, schemeUser := false, schemeAdmin := false,
           explicitRoles := "" }] 0
      = ({ teams := [{ id := "t1", guest := none, userRole := none, admin := none }],
           users := [], members := [] }, none, none)
    ∧ SaveMultipleMembers
        { teams := [{ id := "t1", guest := none, userRole := none, admin := none }],
          users := [], members := [] }
        [{ teamId := "t1", userId := "u1", roles := "", deleteAt := 0,
           schemeGuest := false, schemeUser := false, schemeAdmin := false,
           explicitRoles := "" }] (-1)
      = ({ teams := [{ id := "t1", guest := none, userRole := none, admin := none }],
           users := [],
           members := [{ teamId := "t1", userId := "u1", roles := "", deleteAt := 0,
                         schemeUser := some false, schemeAdmin := some false,
                         schemeGuest := some false }] },
         some [{ teamId := "t1", userId := "u1", roles := "", deleteAt := 0,
                 schemeGuest := false, schemeUser := false, schemeAdmin := false,
                 explicitRoles := "" }], none) := by
  constructor <;> rfl

/-- C6: evaluation of `Update`.  When the prior-row fetch finds nothing the
function returns (nil, nil) — the `err` variable it returns is nil on that
path — rather than an error; the same happens when the write affects zero
rows (optimistic conflict).  On success the prior row's CreateAt (here 3)
is preserved and UpdateAt is set to the current time. -/
theorem teamUpdate_nil_error :
    teamUpdate { id := "id1", name := "n1", createAt := 5, updateAt := 6 } none 0 999
      = (none, none)
    ∧ teamUpdate { id := "id1", name := "n1", createAt := 5, updateAt := 6 }
        (some { id := "id1", name := "n1", createAt := 3, updateAt := 4 }) 0 999
      = (none, none)
    ∧ teamUpdate { id := "id1", name := "n1", createAt := 5, updateAt := 6 }
        (some { id := "id1", name := "n1", createAt := 3, updateAt := 4 }) 1 999
      = (some { id := "id1", name := "n1", createAt := 3, updateAt := 999 }, none) := by
  refine ⟨rfl, rfl, rfl⟩

/-- C7: evaluation of the zero-row lookup paths.  `Get` on a missing row
receives (nil, nil) from gorp and returns (nil, nil) — no distinct not-found
condition at all, contradicting its own doc comment ("returns a
model.AppError with a http.StatusNotFound").  `GetByName` forwards the raw
driver error through two identical branches: `sql.ErrNoRows` is returned
exactly like any other driver failure, with no distinct wrapping. -/
theorem teamGet_no_distinct_not_found :
    teamGet none none = (none, none)
    ∧ teamGetByName (Except.error DbErr.sqlErrNoRows) = (none, some DbErr.sqlErrNoRows)
    ∧ teamGetByName (Except.error (DbErr.other "io failure"))
      = (none, some (DbErr.other "io failure")) := by
  refine ⟨rfl, rfl, rfl⟩

/-- C8: when no row matches (Id, currentStatus) — in particular when the
job row's actual status differs from `currentStatus` — both optimistic
updates leave the table completely unchanged and return false ("no effect");
neither retries (a single conditional UPDATE plus a row-count check). -/
theorem updateOptimistically_mismatch_noop (dbJobs : List Job) (job : Job)
    (id currentStatus newStatus : String) (now : Int)
    (h1 : ∀ r ∈ dbJobs, r.id = job.id → r.status ≠ currentStatus)
    (h2 : ∀ r ∈ dbJobs, r.id = id → r.status ≠ currentStatus) :
    UpdateOptimistically dbJobs job currentStatus now = (dbJobs, false)
    ∧ UpdateStatusOptimistically dbJobs id currentStatus newStatus now = (dbJobs, false) := by
  have hhit1 : ∀ r ∈ dbJobs, (r.id == job.id && r.status == currentStatus) = false := by
    intro r hr
    rcases eq_or_ne r.id job.id with he | he
    · simp [he, h1 r hr he]
    · simp [he]
  have hhit2 : ∀ r ∈ dbJobs, (r.id == id && r.status == currentStatus) = false := by
    intro r hr
    rcases eq_or_ne r.id id with he | he
    · simp [he, h2 r hr he]
    · simp [he]
  constructor
  · have hfil : dbJobs.filter (fun r => r.id == job.id && r.status == currentStatus) = [] :=
      List.filter_eq_nil_iff.mpr (fun r hr => by simp [hhit1 r hr])
    simp only [UpdateOptimistically, hfil, List.length_nil, Prod.mk.injEq]
    refine ⟨?_, by decide⟩
    conv_rhs => rw [← List.map_id dbJobs]
    refine List.map_congr_left ?_
    intro r hr
    simp [hhit1 r hr]
  · have hfil : dbJobs.filter (fun r => r.id == id && r.status == currentStatus) = [] :=
      List.filter_eq_nil_iff.mpr (fun r hr => by simp [hhit2 r hr])
    simp only [UpdateStatusOptimistically, hfil, List.length_nil, Prod.mk.injEq]
    refine ⟨?_, by decide⟩
    conv_rhs => rw [← List.map_id dbJobs]
    refine List.map_congr_left ?_
    intro r hr
    simp [hhit2 r hr]

theorem updateOptimistically_mismatch_noop_witness :
    UpdateOptimistically [{ id := "j1", status := "pending", data := "", progress := 0,
                            lastActivityAt := 0, startAt := 0 }]
        { id := "j1", status := "done", data := "", progress := 0,
          lastActivityAt := 0, startAt := 0 } "running" 7
      = ([{ id := "j1", status := "pending", data := "", progress := 0,
            lastActivityAt := 0, startAt := 0 }], false)
    ∧ UpdateStatusOptimistically [{ id := "j1", status := "pending", data := "", progress := 0,
                                    lastActivityAt := 0, startAt := 0 }]
        "j1" "running" "done" 7
      = ([{ id := "j1", status := "pending", data := "", progress := 0,
            lastActivityAt := 0, startAt := 0 }], false) :=
  updateOptimistically_mismatch_noop
    [{ id := "j1", status := "pending", data := "", progress := 0,
       lastActivityAt := 0, startAt := 0 }]
    { id := "j1", status := "done", data := "", progress := 0,
      lastActivityAt := 0, startAt := 0 }
    "j1" "running" "done" 7 (by decide) (by decide)

/-- C9 counterexample: a Systems row with the same Name exists (with an
empty Value), yet `InsertIfExists` neither returns that row's value nor
leaves quietly: the existing-value test is `origSystem.Value != ""`, so the
insert is attempted and fails on the primary key, and the call returns a
duplicate-key error instead of the existing row. -/
theorem insertIfExists_existing_empty_value_errors :
    InsertIfExists [{ name := "k", value := "" }] { name := "k", value := "v" }
      = ([{ name := "k", value := "" }], Except.error DbErr.uniqueConstraint)
    ∧ (∃ r ∈ ([{ name := "k", value := "" }] : List SystemRow),
        r.name = ({ name := "k", value := "v" } : SystemRow).name)
    ∧ ∀ r ∈ ([{ name := "k", value := "" }] : List SystemRow),
        (InsertIfExists [{ name := "k", value := "" }] { name := "k", value := "v" }).2
          ≠ Except.ok r := by
  refine ⟨rfl, ⟨{ name := "k", value := "" }, by simp, rfl⟩, ?_⟩
  intro r hr
  simp [InsertIfExists]

/-- C9 (amended): if a Systems row with the same Name exists AND its Value
is non-empty, `InsertIfExists` returns that row untouched and leaves the
table unchanged; if no row with that Name exists, it inserts the given
key/value pair and returns it; if a row exists but its Value is empty, the
insert is attempted anyway and fails with a duplicate-key error (table
unchanged, transaction rolled back). -/
theorem insertIfExists_amended (dbSystems : List SystemRow) (system : SystemRow) :
    (∀ r : SystemRow, dbSystems.find? (fun x => x.name == system.name) = some r →
        r.value ≠ "" → InsertIfExists dbSystems system = (dbSystems, Except.ok r))
    ∧ (dbSystems.find? (fun x => x.name == system.name) = none →
        InsertIfExists dbSystems system = (dbSystems ++ [system], Except.ok system))
    ∧ (∀ r : SystemRow, dbSystems.find? (fun x => x.name == system.name) = some r →
        r.value = "" →
        InsertIfExists dbSystems system = (dbSystems, Except.error DbErr.uniqueConstraint)) := by
  refine ⟨?_, ?_, ?_⟩
  · intro r hf hv
    simp [InsertIfExists, hf, hv]
  · intro hf
    have hany : dbSystems.any (fun r => r.name == system.name) = false := by
      rw [List.any_eq_false]
      intro x hx
      have := List.find?_eq_none.mp hf x hx
      simpa using this
    simp [InsertIfExists, hf, hany]
  · intro r hf hv
    have hmem : r ∈ dbSystems := List.mem_of_find?_eq_some hf
    have hname : r.name = system.name := by
      have hp := List.find?_some hf
      simpa using hp
    have hany : dbSystems.any (fun x => x.name == system.name) = true :=
      List.any_eq_true.mpr ⟨r, hmem, by simp [hname]⟩
    simp [InsertIfExists, hf, hv, hany]

theorem insertIfExists_amended_witness :
    InsertIfExists [{ name := "a", value := "x" }] { name := "a", value := "y" }
      = ([{ name := "a", value := "x" }], Except.ok { name := "a", value := "x" })
    ∧ InsertIfExists ([] : List SystemRow) { name := "a", value := "y" }
      = ([{ name := "a", value := "y" }], Except.ok { name := "a", value := "y" }) :=
  ⟨(insertIfExists_amended [{ name := "a", value := "x" }] { name := "a", value := "y" }).1
      { name := "a", value := "x" } (by decide) (by decide),
   (insertIfExists_amended [] { name := "a", value := "y" }).2.1 (by decide)⟩

/-- C10: in status `SaveOrUpdate`, when the initial lookup finds no row for
the user and the insert reports an error whose text contains both
"Duplicate entry" and "for key 'PRIMARY'", the error is swallowed: the call
returns a nil error, no update is performed, and the table is unchanged (the
new status value is not written).  An insert error not matching both
fragments is returned to the caller. -/
theorem statusSaveOrUpdate_duplicate_swallowed (dbStatus : List StatusRow)
    (status : StatusRow) (e : String)
    (hnone : ∀ r ∈ dbStatus, r.userId ≠ status.userId) :
    ((goContains e PRIMARY_KEY_ERROR_FRAGMENT && goContains e DUPLICATE_ENTRY_FRAGMENT) = true →
      StatusSaveOrUpdate dbStatus status (some e) = (dbStatus, none))
    ∧ ((goContains e PRIMARY_KEY_ERROR_FRAGMENT && goContains e DUPLICATE_ENTRY_FRAGMENT) = false →
      StatusSaveOrUpdate dbStatus status (some e) = (dbStatus, some e)) := by
  have hany : dbStatus.any (fun r => r.userId == status.userId) = false := by
    rw [List.any_eq_false]
    intro r hr
    simpa using hnone r hr
  constructor <;> intro h <;> simp [StatusSaveOrUpdate, hany, h]

theorem statusSaveOrUpdate_duplicate_swallowed_witness :
    StatusSaveOrUpdate [] { userId := "u1", status := "online", manual := false, lastActivityAt := 0 }
        (some "Error 1062: Duplicate entry \x27u1\x27 for key \x27PRIMARY\x27")
      = ([], none)
    ∧ StatusSaveOrUpdate [] { userId := "u1", status := "online", manual := false, lastActivityAt := 0 }
        (some "deadlock found") = ([], some "deadlock found") :=
  ⟨(statusSaveOrUpdate_duplicate_swallowed []
      { userId := "u1", status := "online", manual := false, lastActivityAt := 0 }
      "Error 1062: Duplicate entry \x27u1\x27 for key \x27PRIMARY\x27"
      (by decide)).1 (by decide),
   (statusSaveOrUpdate_duplicate_swallowed []
      { userId := "u1", status := "online", manual := false, lastActivityAt := 0 }
      "deadlock found" (by decide)).2 (by decide)⟩

theorem wsSplit_ne_nil (cs : List Char) : wsSplit cs ≠ [] := by
  induction cs with
  | nil => simp [wsSplit]
  | cons c cs ih =>
    simp only [wsSplit]
    cases h : wsSplit cs with
    | nil => simp
    | cons g gs =>
      by_cases hw : c.isWhitespace <;> simp [hw]

theorem wsSplit_clean (cs : List Char) :
    ∀ g ∈ wsSplit cs, ∀ c ∈ g, c.isWhitespace = false := by
  induction cs with
  | nil => simp [wsSplit]
  | cons c cs ih =>
    simp only [wsSplit]
    cases h : wsSplit cs with
    | nil => simp
    | cons g gs =>
      have ihg := h ▸ ih
      by_cases hw : c.isWhitespace
      · simp only [hw, if_pos]
        intro g' hg'
        rcases List.mem_cons.mp hg' with he | hm
        · subst he; simp
        · exact ihg g' hm
      · simp only [hw, if_neg, Bool.false_eq_true, not_false_iff, ite_false]
        intro g' hg'
        rcases List.mem_cons.mp hg' with he | hm
        · subst he
          intro x hx
          rcases List.mem_cons.mp hx with hxe | hxm
          · subst hxe; simpa using hw
          · exact ihg g (List.mem_cons_self g gs) x hxm
        · exact ihg g' (List.mem_cons_of_mem g hm)

theorem strFields_clean (s : String) :
    ∀ t ∈ strFields s, t.data ≠ [] ∧ ∀ c ∈ t.data, c.isWhitespace = false := by
  intro t ht
  simp only [strFields, List.mem_map, List.mem_filter] at ht
  obtain ⟨g, ⟨hg, hne⟩, hmk⟩ := ht
  subst hmk
  constructor
  · simpa [List.isEmpty_iff] using hne
  · exact wsSplit_clean s.data g hg

theorem wsSplit_of_clean (cs : List Char) (h : ∀ c ∈ cs, c.isWhitespace = false) :
    wsSplit cs = [cs] := by
  induction cs with
  | nil => simp [wsSplit]
  | cons c cs ih =>
    have hc : c.isWhitespace = false := h c (List.mem_cons_self c cs)
    have hrest := ih (fun x hx => h x (List.mem_cons_of_mem c hx))
    simp [wsSplit, hrest, hc]

theorem wsSplit_append_clean (t : List Char) :
    ∀ (cs g : List Char) (gs : List (List Char)),
    (∀ c ∈ t, c.isWhitespace = false) → wsSplit cs = g :: gs →
    wsSplit (t ++ cs) = (t ++ g) :: gs := by
  induction t with
  | nil => intro cs g gs _ h; simpa using h
  | cons c t ih =>
    intro cs g gs hclean h
    have hc : c.isWhitespace = false := hclean c (List.mem_cons_self c t)
    have ht := ih cs g gs (fun x hx => hclean x (List.mem_cons_of_mem c hx)) h
    simp [wsSplit, ht, hc]

theorem strData_append (a b : String) : (a ++ b).data = a.data ++ b.data := by
  cases a
  cases b
  rfl

theorem strMk_data (s : String) : String.mk s.data = s := rfl

theorem strFields_joinSpace (ts : List String)
    (h : ∀ t ∈ ts, t.data ≠ [] ∧ ∀ c ∈ t.data, c.isWhitespace = false) :
    strFields (joinSpace ts) = ts := by
  induction ts with
  | nil => simp [joinSpace, strFields, wsSplit]
  | cons t rest ih =>
    obtain ⟨hne, hclean⟩ := h t (List.mem_cons_self t rest)
    cases rest with
    | nil =>
      have hsplit : wsSplit (joinSpace [t]).data = [t.data] := by
        simpa [joinSpace] using wsSplit_of_clean t.data hclean
      simp [strFields, hsplit, List.isEmpty_iff, hne, strMk_data]
    | cons t2 rest2 =>
      have hrest := ih (fun x hx => h x (List.mem_cons_of_mem t hx))
      have hdata : (joinSpace (t :: t2 :: rest2)).data
          = t.data ++ (' ' :: (joinSpace (t2 :: rest2)).data) := by
        show ((t ++ " ") ++ joinSpace (t2 :: rest2)).data = _
        rw [strData_append, strData_append]
        simp
      obtain ⟨g, gs, hgs⟩ := List.exists_cons_of_ne_nil
        (wsSplit_ne_nil (joinSpace (t2 :: rest2)).data)
      have hsp : wsSplit (' ' :: (joinSpace (t2 :: rest2)).data) = [] :: g :: gs := by
        simp [wsSplit, hgs]
      have hsplit : wsSplit (joinSpace (t :: t2 :: rest2)).data = (t.data ++ []) :: g :: gs := by
        rw [hdata]
        exact wsSplit_append_clean t.data _ _ _ hclean hsp
      rw [List.append_nil] at hsplit
      have hfields : strFields (joinSpace (t :: t2 :: rest2))
          = String.mk t.data :: strFields (joinSpace (t2 :: rest2)) := by
        simp only [strFields, hsplit, hgs, List.filter_cons]
        have : (!t.data.isEmpty) = true := by simpa [List.isEmpty_iff] using hne
        simp [this]
      rw [hfields, strMk_data, hrest]

theorem saveMultipleMembers_members_shape (db : TeamsDB) (membersArg : List TeamMember)
    (maxUsersPerTeam : Int) :
    (SaveMultipleMembers db membersArg maxUsersPerTeam).2.1 = none
    ∨ (SaveMultipleMembers db membersArg maxUsersPerTeam).2.1
      = some (membersArg.map (resolveMember db)) := by
  unfold SaveMultipleMembers
  split
  · left; rfl
  · split
    · left; rfl
    · right; rfl

theorem getTeamRoles_explicitRoles_eq (schemeGuest schemeUser schemeAdmin : Bool)
    (dg du da : String) (roles : List String) :
    (getTeamRoles schemeGuest schemeUser schemeAdmin dg du da roles).explicitRoles
      = roles.filter nonSchemeTokenB := by
  have hloop := getTeamRolesLoop_eq roles
    { roles := [], explicitRoles := []
      schemeGuest := schemeGuest, schemeUser := schemeUser, schemeAdmin := schemeAdmin }
  simp [getTeamRoles, hloop]

theorem explicit_join_tokens_nonscheme (schemeGuest schemeUser schemeAdmin : Bool)
    (dg du da s tok : String)
    (htok : tok ∈ strFields (joinSpace
      ((getTeamRoles schemeGuest schemeUser schemeAdmin dg du da (strFields s)).explicitRoles))) :
    tok ≠ TEAM_GUEST_ROLE_ID ∧ tok ≠ TEAM_USER_ROLE_ID ∧ tok ≠ TEAM_ADMIN_ROLE_ID := by
  rw [getTeamRoles_explicitRoles_eq] at htok
  have hclean : ∀ t ∈ (strFields s).filter nonSchemeTokenB,
      t.data ≠ [] ∧ ∀ c ∈ t.data, c.isWhitespace = false :=
    fun t ht => strFields_clean s t (List.mem_of_mem_filter ht)
  rw [strFields_joinSpace _ hclean] at htok
  have hp : nonSchemeTokenB tok = true := List.of_mem_filter htok
  have hp2 : (¬tok = TEAM_GUEST_ROLE_ID ∧ ¬tok = TEAM_USER_ROLE_ID)
      ∧ ¬tok = TEAM_ADMIN_ROLE_ID := by simpa [nonSchemeTokenB] using hp
  exact ⟨hp2.1.1, hp2.1.2, hp2.2⟩

theorem resolveMember_explicitRoles (db : TeamsDB) (member : TeamMember) :
    (resolveMember db member).explicitRoles
      = joinSpace ((getTeamRoles member.schemeGuest member.schemeUser member.schemeAdmin
          (defaultRolesForTeam db member.teamId).1
          (defaultRolesForTeam db member.teamId).2.1
          (defaultRolesForTeam db member.teamId).2.2
          (strFields member.explicitRoles)).explicitRoles) := by
  rcases hd : defaultRolesForTeam db member.teamId with ⟨dg, du, da⟩
  simp [resolveMember, hd]

/-- C3: the scheme split is kept on every read and write path: the explicit
role token list of a TeamMember produced by row-to-model conversion
(`ToModel`), by `SaveMultipleMembers`, or by `UpdateMultipleMembers` never
contains one of the three scheme role IDs — those tokens are absorbed into
the boolean flags by the Role Resolver applied on each of these paths. -/
theorem teamMember_explicit_scheme_split (dbrow : teamMemberWithSchemeRoles)
    (db : TeamsDB) (membersArg : List TeamMember) (maxUsersPerTeam : Int)
    (outList : List TeamMember) (m : TeamMember) (tok : String) :
    (tok ∈ strFields dbrow.ToModel.explicitRoles →
      tok ≠ TEAM_GUEST_ROLE_ID ∧ tok ≠ TEAM_USER_ROLE_ID ∧ tok ≠ TEAM_ADMIN_ROLE_ID)
    ∧ ((SaveMultipleMembers db membersArg maxUsersPerTeam).2.1 = some outList →
        m ∈ outList → tok ∈ strFields m.explicitRoles →
        tok ≠ TEAM_GUEST_ROLE_ID ∧ tok ≠ TEAM_USER_ROLE_ID ∧ tok ≠ TEAM_ADMIN_ROLE_ID)
    ∧ ((UpdateMultipleMembers db membersArg).2.1 = some outList →
        m ∈ outList → tok ∈ strFields m.explicitRoles →
        tok ≠ TEAM_GUEST_ROLE_ID ∧ tok ≠ TEAM_USER_ROLE_ID ∧ tok ≠ TEAM_ADMIN_ROLE_ID) := by
  refine ⟨?_, ?_, ?_⟩
  · intro htok
    exact explicit_join_tokens_nonscheme _ _ _ _ _ _ dbrow.roles tok htok
  · intro hout hm htok
    have hres : outList = membersArg.map (resolveMember db) := by
      rcases saveMultipleMembers_members_shape db membersArg maxUsersPerTeam with hs | hs <;>
        rw [hs] at hout
      · simp at hout
      · simpa using hout.symm
    subst hres
    obtain ⟨x, _, hx⟩ := List.mem_map.mp hm
    subst hx
    rw [resolveMember_explicitRoles] at htok
    exact explicit_join_tokens_nonscheme _ _ _ _ _ _ x.explicitRoles tok htok
  · intro hout hm htok
    have hres : outList = membersArg.map (resolveMember db) := by
      unfold UpdateMultipleMembers at hout
      simp at hout
      exact hout.symm
    subst hres
    obtain ⟨x, _, hx⟩ := List.mem_map.mp hm
    subst hx
    rw [resolveMember_explicitRoles] at htok
    exact explicit_join_tokens_nonscheme _ _ _ _ _ _ x.explicitRoles tok htok

theorem teamMember_explicit_scheme_split_witness :
    ("ctok" : String) ≠ TEAM_GUEST_ROLE_ID ∧ ("ctok" : String) ≠ TEAM_USER_ROLE_ID
      ∧ ("ctok" : String) ≠ TEAM_ADMIN_ROLE_ID :=
  (teamMember_explicit_scheme_split
    { teamId := "t", userId := "u", roles := "team_admin ctok", deleteAt := 0,
      schemeGuest := none, schemeUser := none, schemeAdmin := none,
      teamSchemeDefaultGuestRole := none, teamSchemeDefaultUserRole := none,
      teamSchemeDefaultAdminRole := none }
    { teams := [], users := [], members := [] } [] 0 []
    { teamId := "", userId := "", roles := "", deleteAt := 0,
      schemeGuest := false, schemeUser := false, schemeAdmin := false, explicitRoles := "" }
    "ctok").1 (by decide)

theorem charListLt_irrefl (cs : List Char) : charListLt cs cs = false := by
  induction cs with
  | nil => rfl
  | cons c cs ih => simp [charListLt, lt_irrefl, ih]

theorem char_eq_of_not_lt {a b : Char} (h1 : ¬a < b) (h2 : ¬b < a) : a = b := by
  rcases lt_trichotomy a b with h | h | h
  · exact absurd h h1
  · exact h
  · exact absurd h h2

theorem charListLt_trans :
    ∀ x y z : List Char, charListLt x y = true → charListLt y z = true →
      charListLt x z = true := by
  intro x
  induction x with
  | nil =>
    intro y z hxy hyz
    cases y with
    | nil => simp [charListLt] at hxy
    | cons b bs =>
      cases z with
      | nil => simp [charListLt] at hyz
      | cons c cs => simp [charListLt]
  | cons a as ih =>
    intro y z hxy hyz
    cases y with
    | nil => simp [charListLt] at hxy
    | cons b bs =>
      cases z with
      | nil => simp [charListLt] at hyz
      | cons c cs =>
        by_cases hab : a < b
        · by_cases hbc : b < c
          · simp [charListLt, lt_trans hab hbc]
          · by_cases hcb : c < b
            · simp [charListLt, hbc, hcb] at hyz
            · have hb : b = c := char_eq_of_not_lt hbc hcb
              subst hb
              simp [charListLt, hab]
        · by_cases hba : b < a
          · simp [charListLt, hab, hba] at hxy
          · have ha : a = b := char_eq_of_not_lt hab hba
            subst ha
            by_cases hac : a < c
            · simp [charListLt, hac]
            · by_cases hca : c < a
              · simp [charListLt, hac, hca] at hyz
              · have hc : a = c := char_eq_of_not_lt hac hca
                subst hc
                simp only [charListLt, lt_irrefl, if_false] at hxy hyz ⊢
                exact ih bs cs hxy hyz

theorem KeyLt_irrefl (k : String × String) : ¬ KeyLt k k := by
  simp [KeyLt, keyLtB, strLt, charListLt_irrefl]

theorem strLt_trans {a b c : String} (h1 : strLt a b = true) (h2 : strLt b c = true) :
    strLt a c = true :=
  charListLt_trans a.data b.data c.data h1 h2

theorem KeyLt_trans {k1 k2 k3 : String × String} (h1 : KeyLt k1 k2) (h2 : KeyLt k2 k3) :
    KeyLt k1 k3 := by
  simp only [KeyLt, keyLtB, Bool.or_eq_true, Bool.and_eq_true, beq_iff_eq] at h1 h2 ⊢
  rcases h1 with h1 | ⟨he1, h1⟩
  · rcases h2 with h2 | ⟨he2, h2⟩
    · exact Or.inl (strLt_trans h1 h2)
    · exact Or.inl (he2 ▸ h1)
  · rcases h2 with h2 | ⟨he2, h2⟩
    · exact Or.inl (he1 ▸ h2)
    · exact Or.inr ⟨he1.trans he2, strLt_trans h1 h2⟩

theorem KeyLt_ne {k1 k2 : String × String} (h : KeyLt k1 k2) : k1 ≠ k2 := by
  intro he
  exact KeyLt_irrefl k2 (he ▸ h)

theorem pairwise_getLast {α : Type} {R : α → α → Prop} :
    ∀ (l : List α) (h : l ≠ []), l.Pairwise R →
      ∀ x ∈ l, x = l.getLast h ∨ R x (l.getLast h) := by
  intro l
  induction l with
  | nil => intro h; exact absurd rfl h
  | cons a t ih =>
    intro h hp x hx
    cases t with
    | nil =>
      rcases List.mem_singleton.mp hx with he
      subst he
      left
      rfl
    | cons b t2 =>
      have htne : b :: t2 ≠ [] := by simp
      have hlast : (a :: b :: t2).getLast h = (b :: t2).getLast htne :=
        List.getLast_cons htne
      rcases List.mem_cons.mp hx with he | hm
      · subst he
        right
        rw [hlast]
        exact (List.pairwise_cons.mp hp).1 _ (List.getLast_mem htne)
      · rw [hlast]
        exact ih htne (List.pairwise_cons.mp hp).2 x hm

theorem migrateRow_key (m : teamMember) : rowKey (migrateRow m) = rowKey m := by
  unfold migrateRow
  rw [migrateRoles_eq]
  rfl

theorem filter_after_getLast (db : List teamMember) (cursor : String × String) (n : Nat)
    (hsort : db.Pairwise (fun x y => KeyLt (rowKey x) (rowKey y)))
    (hbatch : (db.filter (fun m => keyLtB cursor (rowKey m))).take n ≠ []) :
    db.filter (fun m =>
        keyLtB (rowKey (((db.filter (fun m => keyLtB cursor (rowKey m))).take n).getLast hbatch))
          (rowKey m))
      = (db.filter (fun m => keyLtB cursor (rowKey m))).drop n := by
  set L := db.filter (fun m => keyLtB cursor (rowKey m)) with hLdef
  set lastRow := (L.take n).getLast hbatch with hlastdef
  have hLp : L.Pairwise (fun x y => KeyLt (rowKey x) (rowKey y)) := hsort.filter _
  have hbp : (L.take n).Pairwise (fun x y => KeyLt (rowKey x) (rowKey y)) :=
    hLp.sublist (List.take_sublist n L)
  have hlast_mem_take : lastRow ∈ L.take n := List.getLast_mem hbatch
  have hlast_mem : lastRow ∈ L := List.take_subset n L hlast_mem_take
  have hcursor_last : KeyLt cursor (rowKey lastRow) := by
    have := (List.mem_filter.mp (hLdef ▸ hlast_mem)).2
    exact this
  have hmax : ∀ x ∈ L.take n, x = lastRow ∨ KeyLt (rowKey x) (rowKey lastRow) :=
    pairwise_getLast (L.take n) hbatch hbp
  have hsplitL : L.take n ++ L.drop n = L := List.take_append_drop n L
  have hdropgt : ∀ x ∈ L.take n, ∀ y ∈ L.drop n, KeyLt (rowKey x) (rowKey y) := by
    have := hsplitL ▸ hLp
    exact (List.pairwise_append.mp this).2.2
  have hstepA : db.filter (fun m => keyLtB (rowKey lastRow) (rowKey m))
      = L.filter (fun m => keyLtB (rowKey lastRow) (rowKey m)) := by
    rw [hLdef, List.filter_filter]
    refine List.filter_congr ?_
    intro m _
    by_cases hm : keyLtB (rowKey lastRow) (rowKey m) = true
    · have hc : keyLtB cursor (rowKey m) = true := KeyLt_trans hcursor_last hm
      simp [hm, hc]
    · simp only [Bool.not_eq_true] at hm
      simp [hm]
  have hfb : (L.take n).filter (fun m => keyLtB (rowKey lastRow) (rowKey m)) = [] := by
    refine List.filter_eq_nil_iff.mpr ?_
    intro x hx
    rcases hmax x hx with he | hlt
    · subst he
      simpa [KeyLt] using KeyLt_irrefl (rowKey lastRow)
    · intro hcon
      exact KeyLt_irrefl _ (KeyLt_trans hcon hlt)
  have hfd : (L.drop n).filter (fun m => keyLtB (rowKey lastRow) (rowKey m)) = L.drop n := by
    refine List.filter_eq_self.mpr ?_
    intro y hy
    exact hdropgt lastRow hlast_mem_take y hy
  calc db.filter (fun m => keyLtB (rowKey lastRow) (rowKey m))
      = L.filter (fun m => keyLtB (rowKey lastRow) (rowKey m)) := hstepA
    _ = (L.take n ++ L.drop n).filter (fun m => keyLtB (rowKey lastRow) (rowKey m)) := by
        rw [hsplitL]
    _ = (L.take n).filter (fun m => keyLtB (rowKey lastRow) (rowKey m))
          ++ (L.drop n).filter (fun m => keyLtB (rowKey lastRow) (rowKey m)) :=
        List.filter_append _ _
    _ = L.drop n := by rw [hfb, hfd, List.nil_append]

theorem migrateRun_complete :
    ∀ (fuel : Nat) (dbMembers : List teamMember) (c1 c2 : String),
    dbMembers.Pairwise (fun x y => KeyLt (rowKey x) (rowKey y)) →
    (dbMembers.filter (fun m => keyLtB (c1, c2) (rowKey m))).length + 1 ≤ fuel →
    migrateRun fuel dbMembers (c1, c2)
      = ((dbMembers.filter (fun m => keyLtB (c1, c2) (rowKey m))).map rowKey, true) := by
  intro fuel
  induction fuel with
  | zero => intro db c1 c2 _ hf; omega
  | succ n ih =>
    intro db c1 c2 hsort hf
    by_cases hnil : db.filter (fun m => keyLtB (c1, c2) (rowKey m)) = []
    · have hmig : MigrateTeamMembers db c1 c2 = (none, db) := by
        simp [MigrateTeamMembers, selectBatch, hnil]
      simp [migrateRun, hmig, hnil]
    · have hbne : (db.filter (fun m => keyLtB (c1, c2) (rowKey m))).take 100 ≠ [] := by
        simp only [ne_eq, List.take_eq_nil_iff, not_or]
        exact ⟨by omega, hnil⟩
      set lastRow := ((db.filter (fun m => keyLtB (c1, c2) (rowKey m))).take 100).getLast hbne
        with hlastdef
      set f := (fun m : teamMember =>
        if ((db.filter (fun m => keyLtB (c1, c2) (rowKey m))).take 100).any
            (fun b => b.teamId == m.teamId && b.userId == m.userId) then
          migrateRow m
        else m) with hfdef
      have hGL : ((db.filter (fun m => keyLtB (c1, c2) (rowKey m))).take 100).getLast?
          = some lastRow := List.getLast?_eq_getLast _ hbne
      have hmig : MigrateTeamMembers db c1 c2 = (some (rowKey lastRow), db.map f) := by
        simp only [MigrateTeamMembers, selectBatch, hGL, hfdef]
        rfl
      have hkeyf : ∀ m, rowKey (f m) = rowKey m := by
        intro m
        rw [hfdef]
        by_cases hany : ((db.filter (fun m => keyLtB (c1, c2) (rowKey m))).take 100).any
            (fun b => b.teamId == m.teamId && b.userId == m.userId) = true
        · simp [hany, migrateRow_key]
        · simp only [Bool.not_eq_true] at hany
          simp [hany]
      have hsort' : (db.map f).Pairwise (fun x y => KeyLt (rowKey x) (rowKey y)) := by
        refine List.Pairwise.map f ?_ hsort
        intro a b hab
        rw [hkeyf a, hkeyf b]
        exact hab
      have hfilter' : (db.map f).filter (fun m => keyLtB (rowKey lastRow) (rowKey m))
          = ((db.filter (fun m => keyLtB (c1, c2) (rowKey m))).drop 100).map f := by
        rw [List.filter_map]
        have hcomp : ((fun m => keyLtB (rowKey lastRow) (rowKey m)) ∘ f)
            = fun m => keyLtB (rowKey lastRow) (rowKey (f m)) := rfl
        rw [hcomp]
        have hcong : db.filter (fun m => keyLtB (rowKey lastRow) (rowKey (f m)))
            = db.filter (fun m => keyLtB (rowKey lastRow) (rowKey m)) :=
          List.filter_congr (fun m _ => by rw [hkeyf m])
        rw [hcong]
        rw [filter_after_getLast db (c1, c2) 100 hsort hbne]
      have hLpos : 0 < (db.filter (fun m => keyLtB (c1, c2) (rowKey m))).length :=
        List.length_pos.mpr hnil
      have hfuel' : ((db.map f).filter
            (fun m => keyLtB (rowKey lastRow) (rowKey m))).length + 1 ≤ n := by
        rw [hfilter', List.length_map, List.length_drop]
        omega
      have ihapp := ih (db.map f) (rowKey lastRow).1 (rowKey lastRow).2 hsort' (by
        have : ((rowKey lastRow).1, (rowKey lastRow).2) = rowKey lastRow := rfl
        rw [this]
        exact hfuel')
      have heta : ((rowKey lastRow).1, (rowKey lastRow).2) = rowKey lastRow := rfl
      rw [heta] at ihapp
      have hrun : migrateRun (Nat.succ n) db (c1, c2)
          = ((selectBatch db c1 c2).map rowKey
              ++ (migrateRun n (db.map f) (rowKey lastRow)).1,
             (migrateRun n (db.map f) (rowKey lastRow)).2) := by
        simp only [migrateRun, hmig]
      rw [hrun, ihapp]
      have hmaps : ((db.map f).filter (fun m => keyLtB (rowKey lastRow) (rowKey m))).map rowKey
          = ((db.filter (fun m => keyLtB (c1, c2) (rowKey m))).drop 100).map rowKey := by
        rw [hfilter', List.map_map]
        exact List.map_congr_left (fun m _ => hkeyf m)
      rw [hmaps]
      have hsel : selectBatch db c1 c2
          = (db.filter (fun m => keyLtB (c1, c2) (rowKey m))).take 100 := rfl
      rw [hsel, ← List.map_append, List.take_append_drop]

/-- C4: starting from a cursor strictly below every row of a key-sorted
TeamMembers table and feeding each returned (TeamId, UserId) cursor into the
next call, the repeated calls of `MigrateTeamMembers` visit exactly the rows
of the table, in ascending (TeamId, UserId) order, with no row visited twice
(the visited key sequence equals the table's key list, which is duplicate
free); each call processes at most 100 rows, and after at most
`length + 1` calls the terminal empty result is reached. -/
theorem migrateTeamMembers_visits_all (dbMembers : List teamMember) (c1 c2 : String)
    (hsort : dbMembers.Pairwise (fun x y => KeyLt (rowKey x) (rowKey y)))
    (hbelow : ∀ m ∈ dbMembers, KeyLt (c1, c2) (rowKey m)) :
    migrateRun (dbMembers.length + 1) dbMembers (c1, c2) = (dbMembers.map rowKey, true)
    ∧ (dbMembers.map rowKey).Nodup
    ∧ ∀ (dbAny : List teamMember) (d1 d2 : String),
        (selectBatch dbAny d1 d2).length ≤ 100 := by
  have hfe : dbMembers.filter (fun m => keyLtB (c1, c2) (rowKey m)) = dbMembers :=
    List.filter_eq_self.mpr (fun m hm => hbelow m hm)
  refine ⟨?_, ?_, ?_⟩
  · have hrun := migrateRun_complete (dbMembers.length + 1) dbMembers c1 c2 hsort
      (by rw [hfe])
    rwa [hfe] at hrun
  · exact List.Pairwise.map rowKey (fun a b hab => KeyLt_ne hab) hsort
  · intro dbAny d1 d2
    exact List.length_take_le 100 (dbAny.filter (fun m => keyLtB (d1, d2) (rowKey m)))

theorem migrateTeamMembers_visits_all_witness :
    migrateRun 3
      [{ teamId := "t1", userId := "u1", roles := "team_user ctok", deleteAt := 0,
         schemeUser := none, schemeAdmin := none, schemeGuest := none },
       { teamId := "t1", userId := "u2", roles := "", deleteAt := 0,
         schemeUser := some true, schemeAdmin := some false, schemeGuest := some false }]
      ("", "")
      = ([("t1", "u1"), ("t1", "u2")], true) :=
  (migrateTeamMembers_visits_all
    [{ teamId := "t1", userId := "u1", roles := "team_user ctok", deleteAt := 0,
       schemeUser := none, schemeAdmin := none, schemeGuest := none },
     { teamId := "t1", userId := "u2", roles := "", deleteAt := 0,
       schemeUser := some true, schemeAdmin := some false, schemeGuest := some false }]
    "" "" (by decide) (by decide)).1
